import Mathlib

/-!
A Lean model of the force-directed graph core of `src/app.js` in the dex
repository, with proofs about its behaviour.

Conventions of the embedding:
* JavaScript numbers are modelled as exact rationals (`ℚ`).
* `Math.sqrt` is modelled as an explicit function parameter `sqrtF : ℚ → ℚ`;
  concrete evaluations instantiate it with `Rat.sqrt`, which agrees with the
  real square root on perfect squares (certified in each such statement).
* The host random source used for initial node positions is modelled as an
  explicit sequence `pos : ℕ → ℚ × ℚ` giving the position drawn for each node.
* A JavaScript object used as a map is modelled as a function into `Option`;
  `none` models an absent key (`undefined`).
-/

/-- A point in simulation space. -/
structure Pt where
  x : ℚ
  y : ℚ
  deriving DecidableEq

/-- A node descriptor of the input dataset (`DATA.nodes`): the fields the
graph core reads. `size` is `none` when the dataset leaves it undefined. -/
structure NodeDescr where
  id : String
  category : String
  size : Option ℚ
  deriving DecidableEq

/-- A link descriptor of the input dataset (`DATA.links`): endpoint ids. -/
structure LinkDescr where
  source : String
  target : String
  deriving DecidableEq

/-- A simulation node as built by the copy loop of `renderGraph`
(`app.js:224-231`): the descriptor fields plus position, velocity and force
accumulator. -/
structure SimNode where
  id : String
  category : String
  size : Option ℚ
  x : ℚ
  y : ℚ
  vx : ℚ
  vy : ℚ
  fx : ℚ
  fy : ℚ
  deriving DecidableEq

/-- A simulation link as built by `renderGraph` (`app.js:232-237`): each
endpoint holds the result of the `nodeMap` lookup, which in JavaScript is
`undefined` (here `none`) when the referenced id is absent. -/
structure SimLink where
  source : Option SimNode
  target : Option SimNode
  deriving DecidableEq

/-- The node copy loop of `renderGraph` (`app.js:224-231`): one independent
`SimNode` per descriptor, at the position drawn from the random source, with
velocity and forces zeroed. -/
def makeSimNodes (ns : List NodeDescr) (pos : ℕ → ℚ × ℚ) : List SimNode :=
  ns.enum.map fun p =>
    { id := p.2.id, category := p.2.category, size := p.2.size,
      x := (pos p.1).1, y := (pos p.1).2, vx := 0, vy := 0, fx := 0, fy := 0 }

/-- One assignment `nodeMap[node.id] = node` (`app.js:229`). -/
def nodeMapStep (m : String → Option SimNode) (n : SimNode) :
    String → Option SimNode :=
  fun q => if q = n.id then some n else m q

/-- The `nodeMap` object after the copy loop: assignments in list order,
a later node with an equal id overwriting an earlier one. -/
def nodeMapOf (sims : List SimNode) : String → Option SimNode :=
  sims.foldl nodeMapStep fun _ => none

/-- The link construction of `renderGraph` (`app.js:232-237`): one `SimLink`
per descriptor, endpoints resolved through the node map. -/
def makeSimLinks (nm : String → Option SimNode) (ls : List LinkDescr) :
    List SimLink :=
  ls.map fun l => { source := nm l.source, target := nm l.target }

/-- The graph data adapter as composed in `renderGraph`: build the nodes,
fill the node map, then resolve the links through it. -/
def adaptLinks (ns : List NodeDescr) (pos : ℕ → ℚ × ℚ)
    (ls : List LinkDescr) : List SimLink :=
  makeSimLinks (nodeMapOf (makeSimNodes ns pos)) ls

/-- A link as seen by the background click handler: the two endpoint
positions read from the live nodes (`l.source.x`, ..., `app.js:375`). -/
structure GLink where
  source : Pt
  target : Pt
  deriving DecidableEq

/-- `distToSegment` (`app.js:365-373`): distance from point `p` to the
segment `a`-`b`, via projection with the parameter clamped to `[0,1]`;
a zero-length segment falls back to point-to-point distance. -/
def distToSegment (sqrtF : ℚ → ℚ) (p a b : Pt) : ℚ :=
  let dx := b.x - a.x
  let dy := b.y - a.y
  if dx = 0 ∧ dy = 0 then sqrtF ((p.x - a.x) ^ 2 + (p.y - a.y) ^ 2)
  else
    let t := ((p.x - a.x) * dx + (p.y - a.y) * dy) / (dx * dx + dy * dy)
    let tc := max 0 (min 1 t)
    sqrtF ((p.x - (a.x + tc * dx)) ^ 2 + (p.y - (a.y + tc * dy)) ^ 2)

/-- One iteration of the nearest-link loop of the click handler
(`app.js:374-377`): `none` models `nearest === null, minDist === Infinity`,
and any distance compares below `Infinity`. -/
def scanStep (sqrtF : ℚ → ℚ) (p : Pt) (acc : Option (GLink × ℚ))
    (l : GLink) : Option (GLink × ℚ) :=
  let d := distToSegment sqrtF p l.source l.target
  match acc with
  | none => some (l, d)
  | some pr => if d < pr.2 then some (l, d) else acc

/-- The nearest-link loop of the click handler over the whole link list. -/
def scanNearest (sqrtF : ℚ → ℚ) (p : Pt) (links : List GLink) :
    Option (GLink × ℚ) :=
  links.foldl (scanStep sqrtF p) none

/-- The background click handler of `renderGraph` (`app.js:359-384`):
map the click into simulation space through the inverse view transform,
find the nearest link, and select it when its distance is within
`25 / scale`; otherwise clear the selection (`none`). -/
def clickSelect (sqrtF : ℚ → ℚ) (links : List GLink)
    (clientX clientY rectLeft rectTop offX offY scale : ℚ) : Option GLink :=
  let x := (clientX - rectLeft - offX) / scale
  let y := (clientY - rectTop - offY) / scale
  match scanNearest sqrtF ⟨x, y⟩ links with
  | none => none
  | some pr => if pr.2 ≤ 25 / scale then some pr.1 else none

/-- The view transform: pan offset in pixels and zoom scale. -/
structure View where
  offsetX : ℚ
  offsetY : ℚ
  scale : ℚ
  deriving DecidableEq

/-- The wheel handler of `renderGraph` (`app.js:394-405`): clamp the new
scale to `[0.5, 4]` and recompute both pan offsets about the pointer
position `(cx - left, cy - top)` using the old scale. -/
def wheelUpdate (v : View) (cx cy left top dY : ℚ) : View :=
  let delta := dY * (-1 / 1000)
  let newScale := max (1 / 2) (min 4 (v.scale * (1 + delta)))
  let px := cx - left
  let py := cy - top
  { offsetX := px - (px - v.offsetX) * (newScale / v.scale),
    offsetY := py - (py - v.offsetY) * (newScale / v.scale),
    scale := newScale }

/-- The node `mousedown` handler (`app.js:302-315`): the captured drag
offset, node position minus the pointer mapped into simulation space. -/
def dragStart (node : Pt) (ox oy s cx cy left top : ℚ) : Pt :=
  ⟨node.x - (cx - left - ox) / s, node.y - (cy - top - oy) / s⟩

/-- The `mousemove` handler while dragging (`app.js:413-421`): the node is
placed at the pointer mapped into simulation space plus the captured
offset. -/
def dragMove (dragOffset : Pt) (ox oy s cx cy left top : ℚ) : Pt :=
  ⟨(cx - left - ox) / s + dragOffset.x, (cy - top - oy) / s + dragOffset.y⟩

/-- `maxTicks` (`app.js:513`). -/
def maxTicks : ℕ := 100

/-- The end-of-tick scheduling step (`app.js:508-511`): when a frame is
scheduled (`simulationId !== null`, the `Bool`), the tick runs,
`tickCount` is incremented, and the next frame is scheduled exactly when
`tickCount < maxTicks`; with no scheduled frame nothing runs. -/
def tickSchedule (st : ℕ × Bool) : ℕ × Bool :=
  if st.2 then (st.1 + 1, decide (st.1 + 1 < maxTicks)) else st

/-- Simulation scheduling state after `n` animation frames, starting from
`tickCount = 0` with one frame scheduled (`app.js:512-514`). -/
def simAfter (n : ℕ) : ℕ × Bool := tickSchedule^[n] (0, true)

/-- `linkDistance` (`app.js:434`). -/
def linkDistance : ℚ := 90

/-- `linkStrength` (`app.js:435`, the literal `0.015`). -/
def linkStrength : ℚ := 15 / 1000

/-- The divisor used by the spring force of `tick` (`app.js:457`):
`Math.sqrt(dx*dx + dy*dy) || 1`, i.e. the computed distance with an
exactly-zero result replaced by `1`. -/
def linkForceDivisor (sqrtF : ℚ → ℚ) (src tgt : SimNode) : ℚ :=
  let dx := tgt.x - src.x
  let dy := tgt.y - src.y
  let dist0 := sqrtF (dx * dx + dy * dy)
  if dist0 = 0 then 1 else dist0

/-- One spring-force application of `tick` (`app.js:454-463`): the force
`linkStrength * (dist - linkDistance) / dist` along `(dx, dy)` is added to
the source accumulator and subtracted from the target accumulator. -/
def applyLinkForce (sqrtF : ℚ → ℚ) (src tgt : SimNode) : SimNode × SimNode :=
  let dx := tgt.x - src.x
  let dy := tgt.y - src.y
  let dist := linkForceDivisor sqrtF src tgt
  let diff := dist - linkDistance
  let force := linkStrength * diff / dist
  let fx := dx * force
  let fy := dy * force
  ({ src with fx := src.fx + fx, fy := src.fy + fy },
   { tgt with fx := tgt.fx - fx, fy := tgt.fy - fy })

/-- `map[k] = map[k] || new Set()` in `buildNeighbourMap` (`app.js:191-192`):
keep an existing entry, create an empty one otherwise. -/
def ensureEntry (m : String → Option (Finset String)) (k : String) :
    String → Option (Finset String) :=
  fun q => if q = k then some ((m k).getD ∅) else m q

/-- `map[k].add(v)` in `buildNeighbourMap` (`app.js:193-194`). -/
def addNeighbour (m : String → Option (Finset String)) (k v : String) :
    String → Option (Finset String) :=
  fun q => if q = k then some (insert v ((m k).getD ∅)) else m q

/-- The body of the `forEach` of `buildNeighbourMap` (`app.js:190-195`):
ensure both entries exist, then record the link in both directions. -/
def nbStep (m : String → Option (Finset String)) (l : LinkDescr) :
    String → Option (Finset String) :=
  addNeighbour
    (addNeighbour (ensureEntry (ensureEntry m l.source) l.target)
      l.source l.target)
    l.target l.source

/-- `buildNeighbourMap` (`app.js:188-197`): fold the links over an initially
empty map. `none` models an id that appears in no link. -/
def buildNeighbourMap (links : List LinkDescr) :
    String → Option (Finset String) :=
  links.foldl nbStep fun _ => none

/-- A selection operation of the UI, as wired in `app.js`:
`selectNode` is `onNodeSelect` (`app.js:549-554`, including the `null`
argument used to clear), `selectLink` is `onLinkSelect` (`app.js:556-561`),
`closeLinkPanel` is the close button of the connection panel
(`app.js:580-584`), `closeNodePanel` the close button of the node panel
(`app.js:618`, which calls `onNodeSelect(null)`). -/
inductive SelOp where
  | selectNode : Option SimNode → SelOp
  | selectLink : SimLink → SelOp
  | closeLinkPanel : SelOp
  | closeNodePanel : SelOp

/-- The selection state: the module-level `selectedNode` and
`selectedLink` variables. -/
structure SelState where
  selectedNode : Option SimNode
  selectedLink : Option SimLink

/-- Effect of one selection operation on the selection state. -/
def applySel (s : SelState) : SelOp → SelState
  | .selectNode n => { selectedNode := n, selectedLink := none }
  | .selectLink l => { selectedNode := none, selectedLink := some l }
  | .closeLinkPanel => { s with selectedLink := none }
  | .closeNodePanel => { selectedNode := none, selectedLink := none }

/-- The initial selection state (`app.js:67-68`). -/
def initSel : SelState := { selectedNode := none, selectedLink := none }

/-- The selection state after a sequence of operations. -/
def runSel (ops : List SelOp) : SelState := ops.foldl applySel initSel

/-- The node marker radius (`app.js:292`):
`node.size ? Math.max(4, 3 + node.size * 0.25) : 5`. A JavaScript size of
`0` is falsy, so it takes the default branch. -/
def nodeRadius (size : Option ℚ) : ℚ :=
  match size with
  | some s => if s ≠ 0 then max 4 (3 + s * (1 / 4)) else 5
  | none => 5

/-- Per-node marker opacity in the node-selected branch of
`highlightSelection` (`app.js:535-538`): when the selected id has no entry
in the neighbour map, `neighbours` is `null` and the neighbour test is
skipped. `sel = none` is the nothing-selected rendering. -/
def nodeOpacity (sel : Option String)
    (nb : String → Option (Finset String)) (nid : String) : ℚ :=
  match sel with
  | none => 1
  | some sid =>
    match nb sid with
    | some s => if nid = sid ∨ nid ∈ s then 1 else 2 / 10
    | none => if nid = sid then 1 else 2 / 10

/-- Per-node stroke width in the node-selected branch of
`highlightSelection` (`app.js:539`). -/
def nodeStroke (sel : Option String) (nid : String) : ℚ :=
  match sel with
  | none => 1
  | some sid => if nid = sid then 2 else 1

/-- Per-link opacity in the node-selected branch of `highlightSelection`
(`app.js:541-543`). -/
def linkOpacity (sel : Option String) (l : LinkDescr) : ℚ :=
  match sel with
  | none => 1
  | some sid => if l.source = sid ∨ l.target = sid then 1 else 5 / 100

/-- The one-node dataset of the dangling-link example. -/
def nodesA : List NodeDescr := [{ id := "a", category := "org", size := none }]

/-- The one-link dataset of the dangling-link example: its target id does
not occur among the nodes. -/
def linksAM : List LinkDescr := [{ source := "a", target := "missing" }]

/-- A horizontal segment from `(0,0)` to `(100,0)` used by the concrete
hit-test examples. -/
def seg0 : GLink := ⟨⟨0, 0⟩, ⟨100, 0⟩⟩

/-- Helper: closed form of the scheduling state after `n` frames. -/
theorem simAfter_eq (n : ℕ) :
    simAfter n = (min n maxTicks, decide (n < maxTicks)) := by
  induction n with
  | zero => simp [simAfter, maxTicks]
  | succ k ih =>
    have h : simAfter (k + 1) = tickSchedule (simAfter k) :=
      Function.iterate_succ_apply' _ _ _
    rw [h, ih, tickSchedule]
    by_cases hk : k < maxTicks
    · have h1 : min k maxTicks = k := Nat.min_eq_left (Nat.le_of_lt hk)
      have h2 : min (k + 1) maxTicks = k + 1 := Nat.min_eq_left hk
      simp [hk, h1, h2]
    · have h1 : min k maxTicks = maxTicks :=
        Nat.min_eq_right (Nat.le_of_not_lt hk)
      have h2 : min (k + 1) maxTicks = maxTicks := Nat.min_eq_right (by omega)
      have h3 : ¬ (k + 1 < maxTicks) := by omega
      simp [hk, h1, h2, h3]

/-- C5: in every render pass the loop schedules a next tick only while
`tickCount < maxTicks` with `maxTicks = 100`: after `n` frames exactly
`min n 100` ticks have run, so the count never exceeds 100, a frame is
scheduled exactly while fewer than 100 frames have elapsed, and from the
100th frame on the state is stopped (`simulationId = null`) at exactly 100
ticks. -/
theorem C5_tick_termination (n : ℕ) :
    (simAfter n).1 = min n maxTicks ∧
    (simAfter n).1 ≤ maxTicks ∧
    ((simAfter n).2 = true ↔ n < maxTicks) ∧
    (maxTicks ≤ n → simAfter n = (maxTicks, false)) := by
  rw [simAfter_eq]
  refine ⟨rfl, min_le_right _ _, by simp, ?_⟩
  intro hn
  have h1 : min n maxTicks = maxTicks := Nat.min_eq_right hn
  have h2 : ¬ (n < maxTicks) := by omega
  simp [h1, h2]

/-- C4: a drag that captures its offset at pointer position `(cx0, cy0)`
over a node at `n0`, then moves the pointer to `(cx1, cy1)` with pan and
zoom unchanged, places the node exactly at `n0` plus the pointer delta
divided by the scale — no residual snap. -/
theorem C4_drag_offset_preserved (n0 : Pt)
    (ox oy s left top cx0 cy0 cx1 cy1 : ℚ) :
    dragMove (dragStart n0 ox oy s cx0 cy0 left top) ox oy s cx1 cy1 left top
      = ⟨n0.x + (cx1 - cx0) / s, n0.y + (cy1 - cy0) / s⟩ := by
  simp only [dragMove, dragStart, Pt.mk.injEq]
  constructor <;> ring

/-- Helper: every selection operation leaves at least one of the two
selection slots empty, whatever the previous state. -/
theorem applySel_exclusive (s : SelState) (op : SelOp) :
    (applySel s op).selectedNode = none ∨ (applySel s op).selectedLink = none := by
  cases op <;> simp [applySel]

/-- C8: after any sequence of node-select, link-select and close
operations, never are a node and a link simultaneously selected. -/
theorem C8_selection_exclusive (ops : List SelOp) :
    ¬((runSel ops).selectedNode.isSome = true ∧
      (runSel ops).selectedLink.isSome = true) := by
  have key : ∀ (l : List SelOp) (s : SelState),
      s.selectedNode = none ∨ s.selectedLink = none →
      (l.foldl applySel s).selectedNode = none ∨
        (l.foldl applySel s).selectedLink = none := by
    intro l
    induction l with
    | nil => intro s hs; simpa using hs
    | cons op tl ih =>
      intro s _
      simp only [List.foldl_cons]
      exact ih _ (applySel_exclusive s op)
  intro hcontra
  rcases key ops initSel (Or.inl rfl) with h | h <;>
    · rw [runSel] at hcontra
      rw [h] at hcontra
      simp at hcontra

/-- C9 counterexample: for a node whose `size` is defined and equal to 0,
the code renders radius 5 (the JavaScript falsy branch), not
`max(4, 3 + 0·0.25) = 4` as the claim states for every defined size. -/
theorem C9_radius_counterexample :
    nodeRadius (some 0) = 5 ∧ max (4 : ℚ) (3 + 0 * (1 / 4)) = 4 ∧
      nodeRadius (some 0) ≠ max (4 : ℚ) (3 + 0 * (1 / 4)) := by
  refine ⟨by simp [nodeRadius], by norm_num, ?_⟩
  simp [nodeRadius]
  norm_num

/-- C9 amended: the marker radius is `max(4, 3 + size·0.25)` when `size` is
defined and nonzero, and the fixed default 5 when `size` is undefined or
zero (both falsy in JavaScript); in all cases the radius is at least 4. -/
theorem C9_radius_amended (size : Option ℚ) :
    (∀ v : ℚ, size = some v → v ≠ 0 →
      nodeRadius size = max 4 (3 + v * (1 / 4))) ∧
    (size = none → nodeRadius size = 5) ∧
    (size = some 0 → nodeRadius size = 5) ∧
    4 ≤ nodeRadius size := by
  refine ⟨?_, ?_, ?_, ?_⟩
  · rintro v rfl hv
    simp [nodeRadius, hv]
  · rintro rfl
    simp [nodeRadius]
  · rintro rfl
    simp [nodeRadius]
  · cases size with
    | none => norm_num [nodeRadius]
    | some s =>
      by_cases hs : s = 0
      · norm_num [nodeRadius, hs]
      · simp only [nodeRadius, hs, ne_eq, not_false_eq_true, if_true]
        exact le_max_left _ _

/-- C9 witness: a node of size 8 gets radius `max(4, 3 + 8·0.25) = 5`. -/
theorem C9_radius_amended_witness :
    nodeRadius (some 8) = max 4 (3 + 8 * (1 / 4)) :=
  (C9_radius_amended (some 8)).1 8 rfl (by norm_num)

/-- C3: after a wheel event at screen point `(cx - left, cy - top)` with
starting scale in `[0.5, 4]`, the new scale is
`clamp(scale·(1 + deltaY·−0.001), 0.5, 4)`, both offsets are recomputed as
`pointer − (pointer − offset)·(newScale/oldScale)`, the simulation-space
point that was under the pointer maps back to the pointer exactly, and the
new scale is again in `[0.5, 4]`. -/
theorem C3_wheel_zoom (v : View) (cx cy left top dY : ℚ)
    (h1 : 1 / 2 ≤ v.scale) (h2 : v.scale ≤ 4) :
    (wheelUpdate v cx cy left top dY).scale =
      max (1 / 2) (min 4 (v.scale * (1 + dY * (-1 / 1000)))) ∧
    (wheelUpdate v cx cy left top dY).offsetX =
      (cx - left) - ((cx - left) - v.offsetX) *
        ((wheelUpdate v cx cy left top dY).scale / v.scale) ∧
    (wheelUpdate v cx cy left top dY).offsetY =
      (cy - top) - ((cy - top) - v.offsetY) *
        ((wheelUpdate v cx cy left top dY).scale / v.scale) ∧
    ((cx - left) - v.offsetX) / v.scale * (wheelUpdate v cx cy left top dY).scale
      + (wheelUpdate v cx cy left top dY).offsetX = cx - left ∧
    ((cy - top) - v.offsetY) / v.scale * (wheelUpdate v cx cy left top dY).scale
      + (wheelUpdate v cx cy left top dY).offsetY = cy - top ∧
    1 / 2 ≤ (wheelUpdate v cx cy left top dY).scale ∧
    (wheelUpdate v cx cy left top dY).scale ≤ 4 := by
  have hs : v.scale ≠ 0 := by
    intro h
    rw [h] at h1
    norm_num at h1
  refine ⟨rfl, rfl, rfl, ?_, ?_, ?_, ?_⟩
  · simp only [wheelUpdate]
    field_simp
  · simp only [wheelUpdate]
    field_simp
  · exact le_max_left _ _
  · exact max_le (by norm_num) (min_le_left _ _)

/-- C3 witness: from the identity view, a wheel event with `deltaY = −100`
at pointer `(100, 50)` yields scale `1.1` and keeps the point that was
under the pointer at the pointer. -/
theorem C3_wheel_zoom_witness :
    (wheelUpdate ⟨0, 0, 1⟩ 100 50 0 0 (-100)).scale = 11 / 10 ∧
    ((100 : ℚ) - 0 - (0 : ℚ)) / 1 * (wheelUpdate ⟨0, 0, 1⟩ 100 50 0 0 (-100)).scale
      + (wheelUpdate ⟨0, 0, 1⟩ 100 50 0 0 (-100)).offsetX = 100 - 0 := by
  have h := C3_wheel_zoom ⟨0, 0, 1⟩ 100 50 0 0 (-100) (by norm_num) (by norm_num)
  constructor
  · rw [h.1]
    norm_num
  · exact h.2.2.2.1

/-- Helper: the nearest-link fold returns a pair whose distance is the
minimum over the list (and over any starting accumulator), attained by the
returned link. -/
theorem scan_foldl_spec (sqrtF : ℚ → ℚ) (p : Pt) :
    ∀ (ls : List GLink) (acc : Option (GLink × ℚ)) (l : GLink) (m : ℚ),
      ls.foldl (scanStep sqrtF p) acc = some (l, m) →
      (acc = some (l, m) ∨
        (l ∈ ls ∧ m = distToSegment sqrtF p l.source l.target)) ∧
      (∀ l2 ∈ ls, m ≤ distToSegment sqrtF p l2.source l2.target) ∧
      (∀ pr : GLink × ℚ, acc = some pr → m ≤ pr.2) := by
  intro ls
  induction ls with
  | nil =>
    intro acc l m h
    simp only [List.foldl_nil] at h
    refine ⟨Or.inl h, by simp, ?_⟩
    intro pr hpr
    rw [h] at hpr
    injection hpr with hpr2
    rw [← hpr2]
  | cons hd tl ih =>
    intro acc l m h
    simp only [List.foldl_cons] at h
    obtain ⟨h1, h2, h3⟩ := ih (scanStep sqrtF p acc hd) l m h
    have hstep : ∀ pr : GLink × ℚ,
        scanStep sqrtF p acc hd = some pr →
        pr.2 ≤ distToSegment sqrtF p hd.source hd.target := by
      intro pr hpr
      cases acc with
      | none =>
        simp only [scanStep] at hpr
        injection hpr with hpr2
        rw [← hpr2]
      | some q =>
        simp only [scanStep] at hpr
        by_cases hc : distToSegment sqrtF p hd.source hd.target < q.2
        · rw [if_pos hc] at hpr
          injection hpr with hpr2
          rw [← hpr2]
        · rw [if_neg hc] at hpr
          injection hpr with hpr2
          rw [← hpr2]
          exact le_of_not_lt hc
    have hhd : m ≤ distToSegment sqrtF p hd.source hd.target := by
      cases hss : scanStep sqrtF p acc hd with
      | none =>
        exfalso
        cases acc with
        | none => simp [scanStep] at hss
        | some q =>
          simp only [scanStep] at hss
          by_cases hc : distToSegment sqrtF p hd.source hd.target < q.2
          · rw [if_pos hc] at hss
            exact Option.noConfusion hss
          · rw [if_neg hc] at hss
            exact Option.noConfusion hss
      | some pr =>
        exact le_trans (h3 pr hss) (hstep pr hss)
    refine ⟨?_, ?_, ?_⟩
    · rcases h1 with h1 | h1
      · cases acc with
        | none =>
          simp only [scanStep] at h1
          injection h1 with h1p
          rw [Prod.mk.injEq] at h1p
          obtain ⟨rfl, rfl⟩ := h1p
          exact Or.inr ⟨List.mem_cons_self _ _, rfl⟩
        | some q =>
          simp only [scanStep] at h1
          by_cases hc : distToSegment sqrtF p hd.source hd.target < q.2
          · rw [if_pos hc] at h1
            injection h1 with h1p
            rw [Prod.mk.injEq] at h1p
            obtain ⟨rfl, rfl⟩ := h1p
            exact Or.inr ⟨List.mem_cons_self _ _, rfl⟩
          · rw [if_neg hc] at h1
            exact Or.inl h1
      · exact Or.inr ⟨List.mem_cons_of_mem _ h1.1, h1.2⟩
    · intro l2 hl2
      rcases List.mem_cons.mp hl2 with rfl | hl2
      · exact hhd
      · exact h2 l2 hl2
    · intro pr hpr
      cases acc with
      | none => exact Option.noConfusion hpr
      | some q =>
        injection hpr with hq
        subst hq
        simp only [scanStep] at h3
        by_cases hc : distToSegment sqrtF p hd.source hd.target < q.2
        · rw [if_pos hc] at h3
          have hle := h3 (hd, distToSegment sqrtF p hd.source hd.target) rfl
          exact le_trans hle (le_of_lt hc)
        · rw [if_neg hc] at h3
          exact h3 q rfl

/-- Helper: the nearest-link fold never loses a non-empty accumulator. -/
theorem scan_foldl_isSome (sqrtF : ℚ → ℚ) (p : Pt) :
    ∀ (ls : List GLink) (acc : Option (GLink × ℚ)), acc.isSome = true →
      (ls.foldl (scanStep sqrtF p) acc).isSome = true := by
  intro ls
  induction ls with
  | nil => intro acc h; simpa using h
  | cons hd tl ih =>
    intro acc h
    simp only [List.foldl_cons]
    apply ih
    cases acc with
    | none => simp at h
    | some q =>
      simp only [scanStep]
      by_cases hc : distToSegment sqrtF p hd.source hd.target < q.2
      · rw [if_pos hc]
        rfl
      · rw [if_neg hc]
        rfl

/-- Helper: the nearest-link scan comes back empty only on an empty link
list. -/
theorem scanNearest_eq_none (sqrtF : ℚ → ℚ) (p : Pt) (links : List GLink) :
    scanNearest sqrtF p links = none → links = [] := by
  intro h
  cases links with
  | nil => rfl
  | cons hd tl =>
    exfalso
    rw [scanNearest, List.foldl_cons] at h
    have hs : (scanStep sqrtF p none hd).isSome = true := by simp [scanStep]
    have h2 := scan_foldl_isSome sqrtF p tl _ hs
    rw [h] at h2
    simp at h2

/-- C2: a click not consumed by a node hit target is mapped to simulation
space as `((cx − left − offsetX)/s, (cy − top − offsetY)/s)`; the link of
minimum point-to-segment distance from that point is selected exactly when
that minimum is at most `25/s`, and otherwise the selection is cleared;
concretely, at scale 1 a click 24 units from the only link selects it and a
click 26 units away selects nothing (`Rat.sqrt` agrees with the real square
root at the perfect squares 576 and 676 arising there). -/
theorem C2_click_hit_test (sqrtF : ℚ → ℚ) (links : List GLink)
    (cx cy left top ox oy s : ℚ) :
    (∀ l : GLink,
        clickSelect sqrtF links cx cy left top ox oy s = some l →
        l ∈ links ∧
        (∀ l2 ∈ links,
          distToSegment sqrtF ⟨(cx - left - ox) / s, (cy - top - oy) / s⟩
              l.source l.target ≤
            distToSegment sqrtF ⟨(cx - left - ox) / s, (cy - top - oy) / s⟩
              l2.source l2.target) ∧
        distToSegment sqrtF ⟨(cx - left - ox) / s, (cy - top - oy) / s⟩
            l.source l.target ≤ 25 / s) ∧
    (clickSelect sqrtF links cx cy left top ox oy s = none →
      ∀ l2 ∈ links,
        25 / s < distToSegment sqrtF ⟨(cx - left - ox) / s, (cy - top - oy) / s⟩
          l2.source l2.target) ∧
    clickSelect Rat.sqrt [seg0] 50 24 0 0 0 0 1 = some seg0 ∧
    clickSelect Rat.sqrt [seg0] 50 26 0 0 0 0 1 = none := by
  refine ⟨?_, ?_, ?_, ?_⟩
  · intro l hl
    simp only [clickSelect] at hl
    cases hsn : scanNearest sqrtF ⟨(cx - left - ox) / s, (cy - top - oy) / s⟩ links with
    | none =>
      rw [hsn] at hl
      simp at hl
    | some pr =>
      rw [hsn] at hl
      dsimp only at hl
      by_cases hth : pr.2 ≤ 25 / s
      · rw [if_pos hth] at hl
        injection hl with hl1
        subst hl1
        obtain ⟨h1, h2, _⟩ := scan_foldl_spec sqrtF _ links none pr.1 pr.2 hsn
        rcases h1 with h1 | h1
        · exact absurd h1 (by simp)
        · refine ⟨h1.1, ?_, ?_⟩
          · intro l2 hl2
            rw [← h1.2]
            exact h2 l2 hl2
          · rw [← h1.2]
            exact hth
      · rw [if_neg hth] at hl
        simp at hl
  · intro hnone l2 hl2
    simp only [clickSelect] at hnone
    cases hsn : scanNearest sqrtF ⟨(cx - left - ox) / s, (cy - top - oy) / s⟩ links with
    | none =>
      have := scanNearest_eq_none sqrtF _ links hsn
      subst this
      simp at hl2
    | some pr =>
      rw [hsn] at hnone
      dsimp only at hnone
      by_cases hth : pr.2 ≤ 25 / s
      · rw [if_pos hth] at hnone
        simp at hnone
      · rw [if_neg hth] at hnone
        obtain ⟨_, h2, _⟩ := scan_foldl_spec sqrtF _ links none pr.1 pr.2 hsn
        exact lt_of_lt_of_le (lt_of_not_le hth) (h2 l2 hl2)
  · simp only [clickSelect, scanNearest, seg0, List.foldl, scanStep, distToSegment]
    norm_num
  · simp only [clickSelect, scanNearest, seg0, List.foldl, scanStep, distToSegment]
    norm_num

/-- C2 witness: the selected link of the 24-unit click is in the list, and
its distance meets the threshold. -/
theorem C2_witness :
    seg0 ∈ [seg0] ∧
    distToSegment Rat.sqrt ⟨(50 - 0 - 0) / 1, (24 - 0 - 0) / 1⟩
      seg0.source seg0.target ≤ 25 / 1 := by
  have h := C2_click_hit_test Rat.sqrt [seg0] 50 24 0 0 0 0 1
  have h2 := h.1 seg0 h.2.2.1
  exact ⟨h2.1, h2.2.2⟩

/-- Helper: `map[k] = map[k] || new Set()` never removes a member. -/
theorem mem_ensureEntry (m : String → Option (Finset String)) (j k v : String)
    (h : v ∈ ((m k).getD ∅)) : v ∈ (((ensureEntry m j) k).getD ∅) := by
  by_cases hk : k = j
  · subst hk
    simp only [ensureEntry, if_pos rfl, Option.getD_some]
    exact h
  · simpa only [ensureEntry, if_neg hk] using h

/-- Helper: `map[j].add(v)` never removes a member. -/
theorem mem_addNeighbour_mono (m : String → Option (Finset String))
    (j k v v2 : String) (h : v2 ∈ ((m k).getD ∅)) :
    v2 ∈ (((addNeighbour m j v) k).getD ∅) := by
  by_cases hk : k = j
  · subst hk
    simp only [addNeighbour, if_pos rfl, Option.getD_some]
    exact Finset.mem_insert_of_mem h
  · simpa only [addNeighbour, if_neg hk] using h

/-- Helper: after `map[k].add(v)`, `v` is a member of the entry at `k`. -/
theorem mem_addNeighbour_self (m : String → Option (Finset String))
    (k v : String) : v ∈ (((addNeighbour m k v) k).getD ∅) := by
  simp only [addNeighbour, if_pos rfl, Option.getD_some]
  exact Finset.mem_insert_self _ _

/-- Helper: one `buildNeighbourMap` iteration never removes a member. -/
theorem mem_nbStep_mono (m : String → Option (Finset String)) (l : LinkDescr)
    (k v : String) (h : v ∈ ((m k).getD ∅)) :
    v ∈ (((nbStep m l) k).getD ∅) := by
  apply mem_addNeighbour_mono
  apply mem_addNeighbour_mono
  apply mem_ensureEntry
  apply mem_ensureEntry
  exact h

/-- Helper: one `buildNeighbourMap` iteration records its link in both
directions. -/
theorem nbStep_establishes (m : String → Option (Finset String))
    (l : LinkDescr) :
    l.target ∈ (((nbStep m l) l.source).getD ∅) ∧
    l.source ∈ (((nbStep m l) l.target).getD ∅) := by
  constructor
  · apply mem_addNeighbour_mono
    apply mem_addNeighbour_self
  · apply mem_addNeighbour_self

/-- Helper: folding further links over the map never removes a member. -/
theorem mem_nb_foldl_mono :
    ∀ (ls : List LinkDescr) (m : String → Option (Finset String))
      (k v : String), v ∈ ((m k).getD ∅) →
      v ∈ (((ls.foldl nbStep m) k).getD ∅) := by
  intro ls
  induction ls with
  | nil => intro m k v h; simpa using h
  | cons hd tl ih =>
    intro m k v h
    simp only [List.foldl_cons]
    exact ih _ k v (mem_nbStep_mono m hd k v h)

/-- Helper: symmetry of the folded neighbour map from any starting map. -/
theorem nb_foldl_symmetric :
    ∀ (ls : List LinkDescr) (m : String → Option (Finset String)),
      ∀ l ∈ ls,
        l.target ∈ (((ls.foldl nbStep m) l.source).getD ∅) ∧
        l.source ∈ (((ls.foldl nbStep m) l.target).getD ∅) := by
  intro ls
  induction ls with
  | nil => intro m l hl; simp at hl
  | cons hd tl ih =>
    intro m l hl
    simp only [List.foldl_cons]
    rcases List.mem_cons.mp hl with rfl | hl
    · obtain ⟨h1, h2⟩ := nbStep_establishes m l
      exact ⟨mem_nb_foldl_mono tl _ _ _ h1, mem_nb_foldl_mono tl _ _ _ h2⟩
    · exact ih (nbStep m hd) l hl

/-- C7: the neighbour index built by `buildNeighbourMap` is symmetric: for
every link `(a, b)` of the input, `b` is recorded among the neighbours of
`a` and `a` among the neighbours of `b`. -/
theorem C7_neighbour_symmetric (links : List LinkDescr) :
    ∀ l ∈ links,
      l.target ∈ (((buildNeighbourMap links) l.source).getD ∅) ∧
      l.source ∈ (((buildNeighbourMap links) l.target).getD ∅) :=
  nb_foldl_symmetric links fun _ => none

/-- C7 witness: on the one-link dataset `(a, b)`, `b` is a neighbour of `a`
and `a` a neighbour of `b`. -/
theorem C7_neighbour_symmetric_witness :
    "b" ∈ (((buildNeighbourMap [{ source := "a", target := "b" }]) "a").getD ∅) ∧
    "a" ∈ (((buildNeighbourMap [{ source := "a", target := "b" }]) "b").getD ∅) :=
  C7_neighbour_symmetric [{ source := "a", target := "b" }]
    { source := "a", target := "b" } (by simp)

/-- Helper: `ensureEntry` leaves an entry present at its key. -/
theorem ensureEntry_isSome_self (m : String → Option (Finset String))
    (k : String) : (((ensureEntry m k) k)).isSome = true := by
  simp [ensureEntry]

/-- Helper: `addNeighbour` leaves an entry present at its key. -/
theorem addNeighbour_isSome_self (m : String → Option (Finset String))
    (k v : String) : (((addNeighbour m k v) k)).isSome = true := by
  simp [addNeighbour]

/-- Helper: `ensureEntry` never erases an entry. -/
theorem ensureEntry_isSome_mono (m : String → Option (Finset String))
    (j k : String) (h : ((m k)).isSome = true) :
    (((ensureEntry m j) k)).isSome = true := by
  by_cases hk : k = j
  · subst hk
    simp [ensureEntry]
  · simpa only [ensureEntry, if_neg hk] using h

/-- Helper: `addNeighbour` never erases an entry. -/
theorem addNeighbour_isSome_mono (m : String → Option (Finset String))
    (j k v : String) (h : ((m k)).isSome = true) :
    (((addNeighbour m j v) k)).isSome = true := by
  by_cases hk : k = j
  · subst hk
    simp [addNeighbour]
  · simpa only [addNeighbour, if_neg hk] using h

/-- Helper: one `buildNeighbourMap` iteration never erases an entry. -/
theorem nbStep_isSome_mono (m : String → Option (Finset String))
    (l : LinkDescr) (k : String) (h : ((m k)).isSome = true) :
    (((nbStep m l) k)).isSome = true := by
  apply addNeighbour_isSome_mono
  apply addNeighbour_isSome_mono
  apply ensureEntry_isSome_mono
  apply ensureEntry_isSome_mono
  exact h

/-- Helper: one `buildNeighbourMap` iteration creates entries for both
endpoints of its link. -/
theorem nbStep_isSome_endpoints (m : String → Option (Finset String))
    (l : LinkDescr) :
    (((nbStep m l) l.source)).isSome = true ∧
    (((nbStep m l) l.target)).isSome = true := by
  constructor
  · apply addNeighbour_isSome_mono
    apply addNeighbour_isSome_self
  · apply addNeighbour_isSome_self

/-- Helper: folding further links never erases an entry. -/
theorem nb_foldl_isSome_mono :
    ∀ (ls : List LinkDescr) (m : String → Option (Finset String)) (k : String),
      ((m k)).isSome = true → (((ls.foldl nbStep m) k)).isSome = true := by
  intro ls
  induction ls with
  | nil => intro m k h; simpa using h
  | cons hd tl ih =>
    intro m k h
    simp only [List.foldl_cons]
    exact ih _ k (nbStep_isSome_mono m hd k h)

/-- Helper: every endpoint of every folded link has an entry in the
resulting map. -/
theorem nb_foldl_isSome_endpoints :
    ∀ (ls : List LinkDescr) (m : String → Option (Finset String)),
      ∀ l ∈ ls,
        (((ls.foldl nbStep m) l.source)).isSome = true ∧
        (((ls.foldl nbStep m) l.target)).isSome = true := by
  intro ls
  induction ls with
  | nil => intro m l hl; simp at hl
  | cons hd tl ih =>
    intro m l hl
    simp only [List.foldl_cons]
    rcases List.mem_cons.mp hl with rfl | hl
    · obtain ⟨h1, h2⟩ := nbStep_isSome_endpoints m l
      exact ⟨nb_foldl_isSome_mono tl _ _ h1, nb_foldl_isSome_mono tl _ _ h2⟩
    · exact ih (nbStep m hd) l hl

/-- C10: when the selected node id `xid` has no entry in the neighbour
index built from the link list, the highlight pass still emphasises it:
its marker gets opacity 1 and stroke-width 2, every other node marker gets
opacity 0.2 and stroke-width 1, and every link gets opacity 0.05 — the
missing entry neither fails nor falls back to the nothing-selected
rendering. -/
theorem C10_highlight_missing_entry (links : List LinkDescr) (xid : String)
    (hnone : buildNeighbourMap links xid = none) :
    nodeOpacity (some xid) (buildNeighbourMap links) xid = 1 ∧
    nodeStroke (some xid) xid = 2 ∧
    (∀ nid : String, nid ≠ xid →
      nodeOpacity (some xid) (buildNeighbourMap links) nid = 2 / 10 ∧
      nodeStroke (some xid) nid = 1) ∧
    (∀ l ∈ links, linkOpacity (some xid) l = 5 / 100) := by
  refine ⟨?_, ?_, ?_, ?_⟩
  · simp [nodeOpacity, hnone]
  · simp [nodeStroke]
  · intro nid hnid
    constructor
    · simp [nodeOpacity, hnone, hnid]
    · simp [nodeStroke, hnid]
  · intro l hl
    obtain ⟨h1, h2⟩ := nb_foldl_isSome_endpoints links (fun _ => none) l hl
    have hsrc : l.source ≠ xid := by
      intro hcontra
      rw [hcontra] at h1
      rw [show links.foldl nbStep (fun _ => none) = buildNeighbourMap links from rfl,
        hnone] at h1
      simp at h1
    have htgt : l.target ≠ xid := by
      intro hcontra
      rw [hcontra] at h2
      rw [show links.foldl nbStep (fun _ => none) = buildNeighbourMap links from rfl,
        hnone] at h2
      simp at h2
    simp [linkOpacity, hsrc, htgt]

/-- C10 witness: on the one-link dataset `(a, b)` with selected id `x`
(absent from the index), the selected marker gets opacity 1 and stroke 2,
the `a` marker gets opacity 0.2 and stroke 1, and the link gets opacity
0.05. -/
theorem C10_highlight_missing_entry_witness :
    nodeOpacity (some "x")
      (buildNeighbourMap [{ source := "a", target := "b" }]) "x" = 1 ∧
    nodeStroke (some "x") "x" = 2 ∧
    nodeOpacity (some "x")
      (buildNeighbourMap [{ source := "a", target := "b" }]) "a" = 2 / 10 ∧
    nodeStroke (some "x") "a" = 1 ∧
    linkOpacity (some "x") { source := "a", target := "b" } = 5 / 100 := by
  have hnone : buildNeighbourMap [{ source := "a", target := "b" }] "x" = none := by
    simp [buildNeighbourMap, nbStep, addNeighbour, ensureEntry]
  have h := C10_highlight_missing_entry [{ source := "a", target := "b" }] "x" hnone
  refine ⟨h.1, h.2.1, (h.2.2.1 "a" (by simp)).1, (h.2.2.1 "a" (by simp)).2,
    h.2.2.2 { source := "a", target := "b" } (by simp)⟩

/-- Helper: a key is absent from the folded node map exactly when it was
absent from the start and no folded node carries it as id. -/
theorem nodeMap_foldl_none :
    ∀ (sims : List SimNode) (m : String → Option SimNode) (k : String),
      ((sims.foldl nodeMapStep m) k = none) ↔
        (m k = none ∧ k ∉ sims.map SimNode.id) := by
  intro sims
  induction sims with
  | nil => intro m k; simp
  | cons n tl ih =>
    intro m k
    simp only [List.foldl_cons, List.map_cons, List.mem_cons]
    rw [ih]
    by_cases hk : k = n.id
    · simp [nodeMapStep, hk]
    · simp [nodeMapStep, hk]

/-- Helper: the node copy loop preserves the list of ids. -/
theorem makeSimNodes_ids (ns : List NodeDescr) (pos : ℕ → ℚ × ℚ) :
    (makeSimNodes ns pos).map SimNode.id = ns.map NodeDescr.id := by
  simp only [makeSimNodes, List.map_map]
  have h : (SimNode.id ∘ fun p : ℕ × NodeDescr =>
      ({ id := p.2.id, category := p.2.category, size := p.2.size,
         x := (pos p.1).1, y := (pos p.1).2, vx := 0, vy := 0,
         fx := 0, fy := 0 } : SimNode)) = NodeDescr.id ∘ Prod.snd := rfl
  rw [h, ← List.map_map, List.enum_map_snd]

/-- C1 counterexample: on the dataset with one node `{id: "a"}` and one
link `{source: "a", target: "missing"}`, the adapter produces exactly ONE
SimLink — not zero — whose target is the unresolved lookup (`undefined`);
nothing is dropped and no fault-reporting path exists in the adapter. -/
theorem C1_counterexample :
    adaptLinks nodesA (fun _ => (0, 0)) linksAM =
      [⟨some ⟨"a", "org", none, 0, 0, 0, 0, 0, 0⟩, none⟩] ∧
    (adaptLinks nodesA (fun _ => (0, 0)) linksAM).length = 1 := by
  constructor
  · rfl
  · rfl

/-- C1 amended: the adapter performs no reference validation and reports
nothing: it produces exactly one SimLink per input link, each endpoint
being the node-map lookup of the corresponding id, and a lookup is
unresolved (`none`) precisely when the id is absent from the node ids. -/
theorem C1_adapter_keeps_dangling (ns : List NodeDescr) (pos : ℕ → ℚ × ℚ)
    (ls : List LinkDescr) :
    (adaptLinks ns pos ls).length = ls.length ∧
    (∀ l ∈ ls,
      ({ source := nodeMapOf (makeSimNodes ns pos) l.source,
         target := nodeMapOf (makeSimNodes ns pos) l.target } : SimLink)
        ∈ adaptLinks ns pos ls) ∧
    (∀ k : String,
      nodeMapOf (makeSimNodes ns pos) k = none ↔ k ∉ ns.map NodeDescr.id) := by
  refine ⟨?_, ?_, ?_⟩
  · simp [adaptLinks, makeSimLinks]
  · intro l hl
    exact List.mem_map_of_mem _ hl
  · intro k
    rw [nodeMapOf, nodeMap_foldl_none, makeSimNodes_ids]
    simp

/-- C1 witness: on the dangling-link dataset the adapter output has length
one, and the id `missing` resolves to nothing in the node map. -/
theorem C1_adapter_keeps_dangling_witness :
    (adaptLinks nodesA (fun _ => (0, 0)) linksAM).length = linksAM.length ∧
    nodeMapOf (makeSimNodes nodesA fun _ => (0, 0)) "missing" = none := by
  have h := C1_adapter_keeps_dangling nodesA (fun _ => (0, 0)) linksAM
  refine ⟨h.1, (h.2.2 "missing").mpr ?_⟩
  simp [nodesA]

/-- Helper: the rational square root of `1/4` is `1/2` — the perfect
square used by the short-link example. -/
theorem ratSqrt_quarter : Rat.sqrt (1 / 4) = 1 / 2 := by
  rw [show (1 / 4 : ℚ) = (1 / 2) * (1 / 2) by norm_num, Rat.sqrt_eq]
  rw [abs_of_pos (by norm_num)]

/-- C6 counterexample: for endpoints at Euclidean distance `1/2` (strictly
between 0 and 1; the square root is exact there, as certified by the first
conjunct), the divisor used by the spring force is `1/2`, not 1, and the
applied force differs from the value a floor-of-1 divisor would give: the
code only replaces an exactly-zero distance by 1. -/
theorem C6_counterexample :
    Rat.sqrt (1 / 4) * Rat.sqrt (1 / 4) = 1 / 4 ∧
    0 < Rat.sqrt (1 / 4) ∧ Rat.sqrt (1 / 4) < 1 ∧
    linkForceDivisor Rat.sqrt ⟨"s", "c", none, 0, 0, 0, 0, 0, 0⟩
      ⟨"t", "c", none, 3 / 10, 2 / 5, 0, 0, 0, 0⟩ = 1 / 2 ∧
    linkForceDivisor Rat.sqrt ⟨"s", "c", none, 0, 0, 0, 0, 0, 0⟩
      ⟨"t", "c", none, 3 / 10, 2 / 5, 0, 0, 0, 0⟩ ≠ 1 ∧
    (applyLinkForce Rat.sqrt ⟨"s", "c", none, 0, 0, 0, 0, 0, 0⟩
      ⟨"t", "c", none, 3 / 10, 2 / 5, 0, 0, 0, 0⟩).1.fx = -1611 / 2000 ∧
    (-1611 / 2000 : ℚ) ≠
      (3 / 10 - 0) * (linkStrength * (1 - linkDistance) / 1) := by
  have hs : Rat.sqrt (1 / 4) = 1 / 2 := ratSqrt_quarter
  refine ⟨?_, ?_, ?_, ?_, ?_, ?_, ?_⟩
  · rw [hs]; norm_num
  · rw [hs]; norm_num
  · rw [hs]; norm_num
  · simp only [linkForceDivisor]
    norm_num
    rw [hs]
    norm_num
  · simp only [linkForceDivisor]
    norm_num
    rw [hs]
    norm_num
  · simp only [applyLinkForce, linkForceDivisor, linkStrength, linkDistance]
    norm_num
    rw [hs]
    norm_num
  · norm_num [linkStrength, linkDistance]

/-- C6 amended: the spring force of `tick` uses as divisor the computed
distance with an exactly-zero value replaced by 1 (a positive quantity,
but NOT floored at 1: any nonzero distance, small ones included, is used
as-is); `diff = d − 90`, `force = 0.015·diff/d`, applied as `force·(dx,dy)`
added to the source accumulator and subtracted from the target
accumulator, all other fields unchanged. -/
theorem C6_link_force_amended (sqrtF : ℚ → ℚ) (src tgt : SimNode)
    (hnn : 0 ≤ sqrtF ((tgt.x - src.x) * (tgt.x - src.x) +
      (tgt.y - src.y) * (tgt.y - src.y))) :
    0 < linkForceDivisor sqrtF src tgt ∧
    (sqrtF ((tgt.x - src.x) * (tgt.x - src.x) +
        (tgt.y - src.y) * (tgt.y - src.y)) ≠ 0 →
      linkForceDivisor sqrtF src tgt =
        sqrtF ((tgt.x - src.x) * (tgt.x - src.x) +
          (tgt.y - src.y) * (tgt.y - src.y))) ∧
    (sqrtF ((tgt.x - src.x) * (tgt.x - src.x) +
        (tgt.y - src.y) * (tgt.y - src.y)) = 0 →
      linkForceDivisor sqrtF src tgt = 1) ∧
    (applyLinkForce sqrtF src tgt).1 = { src with
      fx := src.fx + (tgt.x - src.x) *
        (linkStrength * (linkForceDivisor sqrtF src tgt - linkDistance) /
          linkForceDivisor sqrtF src tgt),
      fy := src.fy + (tgt.y - src.y) *
        (linkStrength * (linkForceDivisor sqrtF src tgt - linkDistance) /
          linkForceDivisor sqrtF src tgt) } ∧
    (applyLinkForce sqrtF src tgt).2 = { tgt with
      fx := tgt.fx - (tgt.x - src.x) *
        (linkStrength * (linkForceDivisor sqrtF src tgt - linkDistance) /
          linkForceDivisor sqrtF src tgt),
      fy := tgt.fy - (tgt.y - src.y) *
        (linkStrength * (linkForceDivisor sqrtF src tgt - linkDistance) /
          linkForceDivisor sqrtF src tgt) } := by
  refine ⟨?_, ?_, ?_, rfl, rfl⟩
  · rw [linkForceDivisor]
    by_cases h0 : sqrtF ((tgt.x - src.x) * (tgt.x - src.x) +
        (tgt.y - src.y) * (tgt.y - src.y)) = 0
    · rw [if_pos h0]
      norm_num
    · rw [if_neg h0]
      exact lt_of_le_of_ne hnn (Ne.symm h0)
  · intro h0
    rw [linkForceDivisor, if_neg h0]
  · intro h0
    rw [linkForceDivisor, if_pos h0]

/-- C6 witness: for endpoints `(0,0)` and `(3,4)` the divisor is the
Euclidean distance 5. -/
theorem C6_link_force_amended_witness :
    0 < linkForceDivisor Rat.sqrt ⟨"s", "c", none, 0, 0, 0, 0, 0, 0⟩
        ⟨"t", "c", none, 3, 4, 0, 0, 0, 0⟩ ∧
    linkForceDivisor Rat.sqrt ⟨"s", "c", none, 0, 0, 0, 0, 0, 0⟩
        ⟨"t", "c", none, 3, 4, 0, 0, 0, 0⟩ = 5 := by
  have h := C6_link_force_amended Rat.sqrt ⟨"s", "c", none, 0, 0, 0, 0, 0, 0⟩
    ⟨"t", "c", none, 3, 4, 0, 0, 0, 0⟩ (Rat.sqrt_nonneg _)
  refine ⟨h.1, ?_⟩
  have h2 := h.2.1
  norm_num at h2
  exact h2

/-- C4 witness: at scale 2, a drag from pointer `(100,100)` to `(130,140)`
moves the node at `(10,20)` by `(15,20)`. -/
theorem C4_drag_offset_preserved_witness :
    dragMove (dragStart ⟨10, 20⟩ 0 0 2 100 100 0 0) 0 0 2 130 140 0 0 =
      ⟨10 + (130 - 100) / 2, 20 + (140 - 100) / 2⟩ :=
  C4_drag_offset_preserved ⟨10, 20⟩ 0 0 2 0 0 100 100 130 140

/-- C5 witness: after 150 frames the simulation sits stopped at exactly
`maxTicks` ticks. -/
theorem C5_tick_termination_witness : simAfter 150 = (maxTicks, false) :=
  (C5_tick_termination 150).2.2.2 (by norm_num [maxTicks])

/-- C8 witness: a concrete link-select followed by a node-select leaves no
state with both slots occupied. -/
theorem C8_selection_exclusive_witness :
    ¬((runSel [SelOp.selectLink ⟨none, none⟩,
        SelOp.selectNode (some ⟨"a", "org", none, 0, 0, 0, 0, 0, 0⟩)]).selectedNode.isSome = true ∧
      (runSel [SelOp.selectLink ⟨none, none⟩,
        SelOp.selectNode (some ⟨"a", "org", none, 0, 0, 0, 0, 0, 0⟩)]).selectedLink.isSome = true) :=
  C8_selection_exclusive [SelOp.selectLink ⟨none, none⟩,
    SelOp.selectNode (some ⟨"a", "org", none, 0, 0, 0, 0, 0, 0⟩)]
